import Mathlib

/-!
Verification of the sales-bonus report generator.

The JavaScript sources are shallowly embedded over exact rationals:
every JS number is modelled as a rational (`ℚ`), JS objects become
structures, JS plain objects used as string-keyed maps become
association lists in insertion order, absent fields and absent
arguments become `Option`, and a thrown error becomes `Except.error`.
The primary variant (src/src/main.js) lives in namespace `MainJs`;
the variant at the head of src/unnamed/part_000 contributes its
`calculateSimpleRevenue` in namespace `PartZero`.
-/

/-- A line item of a purchase record: `{ sku, quantity, sale_price, discount? }`.
The `discount` field is optional in the input contract, hence `Option`. -/
structure LineItem where
  sku : String
  quantity : ℚ
  sale_price : ℚ
  discount : Option ℚ
deriving DecidableEq

/-- A product card: `{ sku, purchase_price, ... }`.  The `name` field of a
product is looked up by main.js only inside an intermediate list that is
discarded before the report is emitted, so it is omitted here. -/
structure Product where
  sku : String
  purchase_price : ℚ
deriving DecidableEq

/-- A seller: `{ id, name?, first_name?, last_name? }` with optional fields. -/
structure Seller where
  id : String
  name : Option String
  first_name : Option String
  last_name : Option String
deriving DecidableEq

/-- A purchase record: `{ seller_id, items }`. -/
structure PurchaseRecord where
  seller_id : String
  items : List LineItem
deriving DecidableEq

/-- The `data` argument.  Each collection is optional so that the
validation checks `!data.sellers` etc. of main.js can be modelled. -/
structure SalesData where
  sellers : Option (List Seller)
  products : Option (List Product)
  purchase_records : Option (List PurchaseRecord)

/-- The mutable per-seller accumulator built by `analyzeSalesData`.
`products_sold` is a JS object keyed by SKU strings, modelled as an
association list in insertion order. -/
structure SellerStat where
  seller_id : String
  name : String
  revenue : ℚ
  cost : ℚ
  profit : ℚ
  sales_count : ℚ
  products_sold : List (String × ℚ)
deriving DecidableEq

/-- An entry of the emitted `top_products` list: `{ sku, quantity }`. -/
structure TopProduct where
  sku : String
  quantity : ℚ
deriving DecidableEq

/-- A row of the emitted report. -/
structure ReportRow where
  seller_id : String
  name : String
  revenue : ℚ
  profit : ℚ
  sales_count : ℚ
  top_products : List TopProduct
  bonus : ℚ
deriving DecidableEq

/-- The `options` argument: the two injected strategies, each optional so
that the check `!calculateRevenue || !calculateBonus` can be modelled.
A revenue strategy receives the line item and the product found in the
index (`none` when the SKU is unknown, i.e. JS `undefined`).  A bonus
strategy receives the zero-based rank, the seller count and the ranked
seller accumulator. -/
structure Options where
  calculateRevenue : Option (LineItem → Option Product → ℚ)
  calculateBonus : Option (ℕ → ℕ → SellerStat → ℚ)

namespace MainJs

/-- `const roundToTwo = (num) => Math.round(num * 100) / 100;`
`Math.round x` returns the integer closest to `x`, ties toward positive
infinity, which on exact rationals is `⌊x + 1/2⌋`.  This exact-rational
idealization of the IEEE-754 double computation agrees with the program
away from decimal ties; a double can never be an exact decimal half-cent,
so no theorem here relies on how a tie is resolved. -/
def roundToTwo (q : ℚ) : ℚ := ((⌊q * 100 + 1 / 2⌋ : ℤ) : ℚ) / 100

/-- `+x.toFixed(2)`: round to the nearest hundredth, where of two equally
near candidates the larger is taken (ECMAScript `toFixed` picks the larger
`n`), which on exact rationals is again `⌊x * 100 + 1/2⌋ / 100`.  The same
idealization caveat as for `roundToTwo` applies: the tie case does not
occur for IEEE-754 doubles and no theorem here depends on it. -/
def toFixedTwo (q : ℚ) : ℚ := ((⌊q * 100 + 1 / 2⌋ : ℤ) : ℚ) / 100

/-- `calculateSimpleRevenue` of src/src/main.js.  It divides
`purchase.discount` by 100 without a default, so when the `discount`
field is absent the JS result is `NaN`; `NaN` is modelled as `none`. -/
def calculateSimpleRevenue (purchase : LineItem) (_product : Option Product) : Option ℚ :=
  match purchase.discount with
  | some d => some (purchase.sale_price * purchase.quantity * (1 - d / 100))
  | none => none

/-- `calculateBonusByProfit` of src/src/main.js.  It destructures
`profit` from the seller but never uses it: each branch returns the bare
multiplier.  JS `total - 1` can be `-1` only when `total = 0`, and then
`index = 0` is caught by the first branch, so truncated `ℕ` subtraction
agrees with JS on all inputs. -/
def calculateBonusByProfit (index : ℕ) (total : ℕ) (_seller : SellerStat) : ℚ :=
  if index = 0 then 15 / 100
  else if index = 1 ∨ index = 2 then 1 / 10
  else if index = total - 1 then 0
  else 1 / 20

/-- `data.products.reduce((acc, product) => { acc[product.sku] = product; ... }, {})`
followed by `productsIndex[sku]`: the last write wins. -/
def lookupProduct (products : List Product) (sku : String) : Option Product :=
  products.foldl (fun acc p => if p.sku = sku then some p else acc) none

/-- JS string coercion of a possibly absent string, as produced by the
`+` operator: an absent (`undefined`) operand becomes the text
`"undefined"`. -/
def jsStringOf : Option String → String
  | some t => t
  | none => "undefined"

/-- JS `a || b` where `a` is a possibly absent string: absent and the
empty string are falsy. -/
def jsOrString (a : Option String) (b : String) : String :=
  match a with
  | some t => if t = "" then b else t
  | none => b

/-- `const name = seller.name || seller.first_name + " " + seller.last_name;` -/
def resolveName (s : Seller) : String :=
  jsOrString s.name (jsStringOf s.first_name ++ " " ++ jsStringOf s.last_name)

/-- The fresh accumulator created for a seller in the `sellerStats` reduce. -/
def mkStat (s : Seller) : SellerStat :=
  { seller_id := s.id
    name := resolveName s
    revenue := 0
    cost := 0
    profit := 0
    sales_count := 0
    products_sold := [] }

/-- `acc[seller.id] = {...}` on a JS object: overwrite the entry with the
same key in place, or append a new entry. -/
def upsertStat : List SellerStat → SellerStat → List SellerStat
  | [], st => [st]
  | s :: rest, st =>
      if s.seller_id = st.seller_id then st :: rest else s :: upsertStat rest st

/-- The `sellerStats` reduce over `data.sellers`. -/
def initStats (sellers : List Seller) : List SellerStat :=
  sellers.foldl (fun acc s => upsertStat acc (mkStat s)) []

/-- `if (!stats.products_sold[id]) stats.products_sold[id] = 0;
stats.products_sold[id] += quantity;` on the association list. -/
def addSold : List (String × ℚ) → String → ℚ → List (String × ℚ)
  | [], sku, q => [(sku, q)]
  | (k, v) :: rest, sku, q =>
      if k = sku then (k, v + q) :: rest else (k, v) :: addSold rest sku q

/-- The body of `record.items.forEach((purchase) => ...)` acting on one
seller accumulator: cost with unknown SKU treated as unit cost 0, revenue
through the injected strategy, both rounded before accumulation, the item
quantity added to `sales_count` and to `products_sold`. -/
def processItem (products : List Product) (calcRev : LineItem → Option Product → ℚ)
    (st : SellerStat) (purchase : LineItem) : SellerStat :=
  let product := lookupProduct products purchase.sku
  let unitCost := match product with
    | some p => p.purchase_price
    | none => 0
  let itemCost := roundToTwo (unitCost * purchase.quantity)
  let revenue := roundToTwo (calcRev purchase product)
  { st with
    revenue := st.revenue + revenue
    cost := st.cost + itemCost
    sales_count := st.sales_count + purchase.quantity
    products_sold := addSold st.products_sold purchase.sku purchase.quantity }

/-- Apply `f` to the unique accumulator with the given key; keys are
unique by construction of the JS object, so only the first match is
touched.  When no accumulator matches, the list is unchanged, which is
the `if (!stats) return;` early exit. -/
def updateStat (f : SellerStat → SellerStat) : List SellerStat → String → List SellerStat
  | [], _ => []
  | s :: rest, id =>
      if s.seller_id = id then f s :: rest else s :: updateStat f rest id

/-- The body of `data.purchase_records.forEach((record) => ...)`. -/
def processRecord (products : List Product) (calcRev : LineItem → Option Product → ℚ)
    (stats : List SellerStat) (record : PurchaseRecord) : List SellerStat :=
  updateStat (fun st => record.items.foldl (processItem products calcRev) st)
    stats record.seller_id

/-- `profit: roundToTwo(seller.revenue - seller.cost)` in the ranking map. -/
def finalizeProfit (st : SellerStat) : SellerStat :=
  { st with profit := roundToTwo (st.revenue - st.cost) }

/-- The ordering tested by the comparator `(a, b) => b.profit - a.profit`:
`a` may precede `b` when `b.profit ≤ a.profit`. -/
def profitGE (a b : SellerStat) : Prop := b.profit ≤ a.profit

instance : DecidableRel profitGE := fun a b => inferInstanceAs (Decidable (_ ≤ _))

instance : IsTotal SellerStat profitGE := ⟨fun a b => le_total b.profit a.profit⟩

instance : IsTrans SellerStat profitGE :=
  ⟨fun _ _ _ h h2 => le_trans h2 h⟩

/-- The ordering tested by the comparator `(a, b) => b.count - a.count`
on `products_sold` entries. -/
def soldGE (a b : String × ℚ) : Prop := b.2 ≤ a.2

instance : DecidableRel soldGE := fun a b => inferInstanceAs (Decidable (_ ≤ _))

instance : IsTotal (String × ℚ) soldGE := ⟨fun a b => le_total b.2 a.2⟩

instance : IsTrans (String × ℚ) soldGE :=
  ⟨fun _ _ _ h h2 => le_trans h2 h⟩

/-- `Object.entries(seller.products_sold)` sorted by quantity descending,
truncated to ten entries and reshaped to `{sku, quantity}`.  JS sort is
modelled by a stable correct sort on the insertion-ordered entries. -/
def topProducts (st : SellerStat) : List TopProduct :=
  ((List.insertionSort soldGE st.products_sold).take 10).map
    (fun e => { sku := e.1, quantity := e.2 })

/-- One row of the final report: the bonus strategy result is used as a
percentage and multiplied by the profit, and the monetary fields go
through `toFixed(2)`. -/
def mkRow (calcBon : ℕ → ℕ → SellerStat → ℚ) (total index : ℕ)
    (seller : SellerStat) : ReportRow :=
  let bonusPercentage := calcBon index total seller
  let bonusAmount := seller.profit * bonusPercentage
  { seller_id := seller.seller_id
    name := seller.name
    revenue := toFixedTwo seller.revenue
    profit := toFixedTwo seller.profit
    sales_count := seller.sales_count
    top_products := topProducts seller
    bonus := toFixedTwo bonusAmount }

/-- `rankedSellers.map((seller, index) => ...)` with its running index. -/
def mkReport (calcBon : ℕ → ℕ → SellerStat → ℚ) (total : ℕ) :
    ℕ → List SellerStat → List ReportRow
  | _, [] => []
  | i, st :: rest => mkRow calcBon total i st :: mkReport calcBon total (i + 1) rest

/-- The whole computation after validation: index, accumulate, rank, report. -/
def runPipeline (sellers : List Seller) (products : List Product)
    (records : List PurchaseRecord) (calcRev : LineItem → Option Product → ℚ)
    (calcBon : ℕ → ℕ → SellerStat → ℚ) : List ReportRow :=
  let stats0 := initStats sellers
  let stats1 := records.foldl (processRecord products calcRev) stats0
  let ranked := List.insertionSort profitGE (stats1.map finalizeProfit)
  mkReport calcBon ranked.length 0 ranked

/-- `analyzeSalesData` of src/src/main.js.  A thrown error is an
`Except.error`; the Russian messages of the source are rendered in
English. -/
def analyzeSalesData (data : Option SalesData) (options : Option Options) :
    Except String (List ReportRow) :=
  match data with
  | none => .error "invalid or incomplete input data"
  | some d =>
    match d.sellers, d.products, d.purchase_records with
    | some sellers, some products, some records =>
      if sellers.isEmpty || products.isEmpty || records.isEmpty then
        .error "invalid or incomplete input data"
      else
        let o := options.getD { calculateRevenue := none, calculateBonus := none }
        match o.calculateRevenue, o.calculateBonus with
        | some calcRev, some calcBon =>
            .ok (runPipeline sellers products records calcRev calcBon)
        | _, _ => .error "revenue or bonus calculation functions not provided"
    | _, _, _ => .error "invalid or incomplete input data"

end MainJs

namespace PartZero

/-- `calculateSimpleRevenue` of the first variant in src/unnamed/part_000:
`const { sale_price, quantity, discount = 0 } = purchase;` defaults the
discount to 0 when the field is absent. -/
def calculateSimpleRevenue (purchase : LineItem) (_product : Option Product) : ℚ :=
  let d := purchase.discount.getD 0
  purchase.sale_price * purchase.quantity * (1 - d / 100)

end PartZero

/-! ### Specification-side definitions

These are written from the wording of the specification, to be compared
with the behaviour of the embedded source. -/

/-- Name resolution as amended: the explicit `name` when present and
non-empty, otherwise first and last name joined by one space, an absent
part rendered as the text `"undefined"`, with no trimming. -/
def nameSpecAmended (s : Seller) : String :=
  match s.name with
  | some n =>
      if n = "" then MainJs.jsStringOf s.first_name ++ " " ++ MainJs.jsStringOf s.last_name
      else n
  | none => MainJs.jsStringOf s.first_name ++ " " ++ MainJs.jsStringOf s.last_name

/-! ### Concrete scenario data -/

/-- The default strategy pair used in the concrete scenarios: the
part_000 revenue formula (total on all inputs) and the main.js bonus
function. -/
def stdOptions : Options :=
  { calculateRevenue := some PartZero.calculateSimpleRevenue
    calculateBonus := some MainJs.calculateBonusByProfit }

/-- A seller with an explicit non-empty name. -/
def namedSeller (i : String) : Seller :=
  { id := i, name := some i, first_name := none, last_name := none }

/-- A line item with all fields present. -/
def mkItem (sku : String) (q p : ℚ) : LineItem :=
  { sku := sku, quantity := q, sale_price := p, discount := some 0 }

/-- One seller, one product at unit cost 5, one record with one item of
quantity 2 at sale price 10: one transaction, two units. -/
def dataOneSeller : SalesData :=
  { sellers := some [namedSeller "s1"]
    products := some [{ sku := "A", purchase_price := 5 }]
    purchase_records := some [{ seller_id := "s1", items := [mkItem "A" 2 10] }] }

/-- The report row main.js produces for `dataOneSeller` under
`stdOptions`. -/
def rowOneSeller : ReportRow :=
  { seller_id := "s1", name := "s1", revenue := 20, profit := 10, sales_count := 2
    top_products := [{ sku := "A", quantity := 2 }], bonus := 3 / 2 }

/-- A line item whose `discount` field is absent. -/
def itemNoDiscount : LineItem :=
  { sku := "A", quantity := 2, sale_price := 10, discount := none }

/-- A seller accumulator whose profit is 100, for probing the bonus
function. -/
def statProfit100 : SellerStat :=
  { seller_id := "s1", name := "s1", revenue := 200, cost := 100, profit := 100
    sales_count := 1, products_sold := [] }

/-- A revenue strategy that reports which product argument it received:
7 when the product is absent (JS `undefined`), 13 when any product object
is passed. -/
def probeRevenue : LineItem → Option Product → ℚ := fun _ p =>
  match p with
  | none => 7
  | some _ => 13

/-- Options carrying the probing revenue strategy. -/
def probeOptions : Options :=
  { calculateRevenue := some probeRevenue
    calculateBonus := some MainJs.calculateBonusByProfit }

/-- A valid input whose only line item has SKU "Z", which is not in the
product list. -/
def dataUnknownSku : SalesData :=
  { sellers := some [namedSeller "s1"]
    products := some [{ sku := "A", purchase_price := 5 }]
    purchase_records := some [{ seller_id := "s1", items := [mkItem "Z" 1 5] }] }

/-- A line item with an unknown SKU, for probing item processing. -/
def itemUnknownSku : LineItem :=
  { sku := "Z", quantity := 3, sale_price := 4, discount := some 0 }

/-- A seller with no explicit name, a first name, and no last name. -/
def johnSeller : Seller :=
  { id := "s1", name := none, first_name := some "John", last_name := none }

/-- A valid input whose only seller is `johnSeller`. -/
def dataJohn : SalesData :=
  { sellers := some [johnSeller]
    products := some [{ sku := "A", purchase_price := 5 }]
    purchase_records := some [{ seller_id := "s1", items := [mkItem "A" 2 10] }] }

/-- The report row main.js produces for `dataUnknownSku` under
`probeOptions`: the revenue 7 shows the probing strategy received an
absent product. -/
def rowUnknownSku : ReportRow :=
  { seller_id := "s1", name := "s1", revenue := 7, profit := 7, sales_count := 1
    top_products := [{ sku := "Z", quantity := 1 }], bonus := 21 / 20 }

/-- The report row main.js produces for `dataJohn`: the seller has no
explicit name and no last name, and the synthesized name renders the
absent part as the text "undefined". -/
def rowJohn : ReportRow :=
  { seller_id := "s1", name := "John undefined", revenue := 20, profit := 10, sales_count := 2
    top_products := [{ sku := "A", quantity := 2 }], bonus := 3 / 2 }

/-- Two sellers, the second of which has no purchase records. -/
def sellersTwo : List Seller := [namedSeller "s1", namedSeller "s2"]

/-- The products of the two-seller scenario. -/
def productsTwo : List Product := [{ sku := "A", purchase_price := 5 }]

/-- The purchase records of the two-seller scenario: only seller s1 sold
anything. -/
def recordsTwo : List PurchaseRecord := [{ seller_id := "s1", items := [mkItem "A" 2 10] }]

/-! ### Evaluation helper lemmas -/

theorem roundToTwo_intCast (n : ℤ) : MainJs.roundToTwo (n : ℚ) = n := by
  have : ((n : ℚ) * 100 + 1 / 2) = ((n * 100 : ℤ) : ℚ) + 1 / 2 := by push_cast; ring
  rw [MainJs.roundToTwo, this, Int.floor_int_add]
  have : ⌊(1 / 2 : ℚ)⌋ = 0 := by norm_num [Int.floor_eq_iff]
  rw [this]
  push_cast
  ring

theorem toFixedTwo_intCast (n : ℤ) : MainJs.toFixedTwo (n : ℚ) = n :=
  roundToTwo_intCast n

theorem roundToTwo_ofNat (n : ℕ) [n.AtLeastTwo] :
    MainJs.roundToTwo (OfNat.ofNat n : ℚ) = OfNat.ofNat n := by
  have h := roundToTwo_intCast (OfNat.ofNat n : ℤ)
  push_cast at h
  exact h

theorem roundToTwo_one : MainJs.roundToTwo (1 : ℚ) = 1 := by
  have h := roundToTwo_intCast 1
  push_cast at h
  exact h

theorem roundToTwo_zero : MainJs.roundToTwo (0 : ℚ) = 0 := by
  have h := roundToTwo_intCast 0
  push_cast at h
  exact h

/-! ### Claim theorems -/

/-- C1: the claim says `sales_count` is incremented by exactly 1 per
matching purchase record, never by item quantity.  On `dataOneSeller`
there is exactly one record for seller `s1`, with a single line item of
quantity 2, yet main.js emits `sales_count = 2`: the source accumulates
`stats.sales_count += purchase.quantity` per line item. -/
theorem salesCount_counts_units_not_records :
    MainJs.analyzeSalesData (some dataOneSeller) (some stdOptions) = .ok [rowOneSeller] ∧
    ((dataOneSeller.purchase_records.getD []).filter
        (fun r => r.seller_id = "s1")).length = 1 ∧
    rowOneSeller.sales_count = 2 ∧ (2 : ℚ) ≠ 1 := by
  refine ⟨?_, by norm_num [dataOneSeller], by norm_num [rowOneSeller], by norm_num⟩
  norm_num [MainJs.analyzeSalesData, MainJs.runPipeline, MainJs.initStats, MainJs.mkStat,
    MainJs.resolveName, MainJs.jsOrString, MainJs.jsStringOf, MainJs.upsertStat,
    MainJs.processRecord, MainJs.updateStat, MainJs.processItem, MainJs.lookupProduct,
    MainJs.addSold, MainJs.finalizeProfit, MainJs.mkReport, MainJs.mkRow, MainJs.topProducts,
    MainJs.calculateBonusByProfit, MainJs.profitGE, MainJs.soldGE,
    PartZero.calculateSimpleRevenue, String.reduceEq, List.insertionSort, List.orderedInsert,
    dataOneSeller, stdOptions, namedSeller, mkItem, rowOneSeller,
    roundToTwo_ofNat, roundToTwo_one, roundToTwo_zero, toFixedTwo_intCast,
    MainJs.toFixedTwo, MainJs.roundToTwo, Rat.floor_def]
  all_goals decide

/-- C2: the claim says `calculateBonusByProfit(index, total, seller)`
returns the absolute bonus amount `seller.profit * m`.  At rank 0 of 1
with profit 100 the claimed result is 15, but the main.js function
returns the bare multiplier 0.15: the destructured profit is unused. -/
theorem calculateBonusByProfit_returns_multiplier :
    MainJs.calculateBonusByProfit 0 1 statProfit100 = 15 / 100 ∧
    statProfit100.profit * (15 / 100) = 15 ∧ (15 / 100 : ℚ) ≠ 15 := by
  refine ⟨by norm_num [MainJs.calculateBonusByProfit], by norm_num [statProfit100], by norm_num⟩

/-- C3: the claim says `calculateSimpleRevenue` defaults the discount to
0 when the field is absent, so with sale price 10 and quantity 2 it
should return 20.  In main.js the absent discount is divided by 100
giving `NaN` (modelled as `none`), so the result is not 20; the part_000
variant, which destructures with `discount = 0`, does return 20. -/
theorem calculateSimpleRevenue_no_discount_default :
    MainJs.calculateSimpleRevenue itemNoDiscount none = none ∧
    PartZero.calculateSimpleRevenue itemNoDiscount none = 20 ∧
    MainJs.calculateSimpleRevenue itemNoDiscount none ≠
      some (itemNoDiscount.sale_price * itemNoDiscount.quantity * (1 - 0 / 100)) := by
  refine ⟨rfl, by norm_num [PartZero.calculateSimpleRevenue, itemNoDiscount], by
    intro h
    simp [MainJs.calculateSimpleRevenue, itemNoDiscount] at h⟩

/-- C4: `analyzeSalesData` returns a report exactly when the data object
is present, the three collections are present and non-empty, and both
strategy functions are supplied; in every other case it throws before any
aggregation and returns no report at all (the `Except` result is total:
it is either one error or one complete report). -/
theorem analyzeSalesData_ok_iff_valid (data : Option SalesData) (options : Option Options) :
    (∃ report, MainJs.analyzeSalesData data options = .ok report) ↔
    (∃ d, data = some d ∧
      (∃ sellers, d.sellers = some sellers ∧ sellers ≠ []) ∧
      (∃ products, d.products = some products ∧ products ≠ []) ∧
      (∃ records, d.purchase_records = some records ∧ records ≠ []) ∧
      (∃ o, options = some o ∧
        (∃ f, o.calculateRevenue = some f) ∧ (∃ g, o.calculateBonus = some g))) := by
  rcases data with _ | ⟨os, op, orc⟩
  · simp [MainJs.analyzeSalesData]
  rcases os with _ | sellers
  · simp [MainJs.analyzeSalesData]
  rcases op with _ | products
  · simp [MainJs.analyzeSalesData]
  rcases orc with _ | records
  · simp [MainJs.analyzeSalesData]
  rcases options with _ | ⟨cr, cb⟩
  · by_cases h : (sellers.isEmpty || products.isEmpty || records.isEmpty) = true <;>
      simp_all [MainJs.analyzeSalesData, Option.getD, List.isEmpty_iff]
  rcases cr with _ | f <;> rcases cb with _ | g <;>
    by_cases h : (sellers.isEmpty || products.isEmpty || records.isEmpty) = true <;>
      simp_all [MainJs.analyzeSalesData, Option.getD, List.isEmpty_iff]
  all_goals tauto

/-! ### Structural lemmas about the aggregation -/

theorem processItem_seller_id (products : List Product)
    (calcRev : LineItem → Option Product → ℚ) (st : SellerStat) (it : LineItem) :
    (MainJs.processItem products calcRev st it).seller_id = st.seller_id := rfl

theorem processItem_name (products : List Product)
    (calcRev : LineItem → Option Product → ℚ) (st : SellerStat) (it : LineItem) :
    (MainJs.processItem products calcRev st it).name = st.name := rfl

theorem foldl_processItem_seller_id (products : List Product)
    (calcRev : LineItem → Option Product → ℚ) (items : List LineItem) (st : SellerStat) :
    (items.foldl (MainJs.processItem products calcRev) st).seller_id = st.seller_id := by
  induction items generalizing st with
  | nil => rfl
  | cons it rest ih =>
      rw [List.foldl_cons, ih, processItem_seller_id]

theorem foldl_processItem_name (products : List Product)
    (calcRev : LineItem → Option Product → ℚ) (items : List LineItem) (st : SellerStat) :
    (items.foldl (MainJs.processItem products calcRev) st).name = st.name := by
  induction items generalizing st with
  | nil => rfl
  | cons it rest ih =>
      rw [List.foldl_cons, ih, processItem_name]

theorem updateStat_map_seller_id (f : SellerStat → SellerStat)
    (hf : ∀ st, (f st).seller_id = st.seller_id) (l : List SellerStat) (id : String) :
    (MainJs.updateStat f l id).map (fun st => st.seller_id)
      = l.map (fun st => st.seller_id) := by
  induction l with
  | nil => rfl
  | cons s rest ih =>
      by_cases hs : s.seller_id = id
      · simp [MainJs.updateStat, hs, hf]
      · simp [MainJs.updateStat, hs, ih]

theorem updateStat_id_of_not_mem (f : SellerStat → SellerStat) (l : List SellerStat)
    (id : String) (h : ∀ st ∈ l, st.seller_id ≠ id) :
    MainJs.updateStat f l id = l := by
  induction l with
  | nil => rfl
  | cons s rest ih =>
      have hs : s.seller_id ≠ id := h s (List.mem_cons_self s rest)
      simp only [MainJs.updateStat, if_neg hs]
      rw [ih (fun st hst => h st (List.mem_cons_of_mem s hst))]

theorem updateStat_mem_of_ne (f : SellerStat → SellerStat) (l : List SellerStat)
    (id : String) (st : SellerStat) (hst : st ∈ l) (hne : st.seller_id ≠ id) :
    st ∈ MainJs.updateStat f l id := by
  induction l with
  | nil => exact absurd hst (List.not_mem_nil st)
  | cons s rest ih =>
      rcases List.mem_cons.1 hst with rfl | hmem
      · have hs : ¬st.seller_id = id := hne
        simp [MainJs.updateStat, if_neg hs]
      · by_cases hs : s.seller_id = id
        · simp only [MainJs.updateStat, if_pos hs]
          exact List.mem_cons_of_mem _ hmem
        · simp only [MainJs.updateStat, if_neg hs]
          exact List.mem_cons_of_mem _ (ih hmem)

theorem processRecord_map_seller_id (products : List Product)
    (calcRev : LineItem → Option Product → ℚ) (stats : List SellerStat)
    (r : PurchaseRecord) :
    (MainJs.processRecord products calcRev stats r).map (fun st => st.seller_id)
      = stats.map (fun st => st.seller_id) := by
  rw [MainJs.processRecord]
  exact updateStat_map_seller_id _ (fun st => foldl_processItem_seller_id _ _ _ _) _ _

theorem foldl_processRecord_map_seller_id (products : List Product)
    (calcRev : LineItem → Option Product → ℚ) (records : List PurchaseRecord)
    (stats : List SellerStat) :
    (records.foldl (MainJs.processRecord products calcRev) stats).map (fun st => st.seller_id)
      = stats.map (fun st => st.seller_id) := by
  induction records generalizing stats with
  | nil => rfl
  | cons r rest ih =>
      rw [List.foldl_cons, ih, processRecord_map_seller_id]

theorem foldl_processRecord_mem (products : List Product)
    (calcRev : LineItem → Option Product → ℚ) (records : List PurchaseRecord)
    (stats : List SellerStat) (st : SellerStat) (hst : st ∈ stats)
    (hno : ∀ r ∈ records, r.seller_id ≠ st.seller_id) :
    st ∈ records.foldl (MainJs.processRecord products calcRev) stats := by
  induction records generalizing stats with
  | nil => exact hst
  | cons r rest ih =>
      rw [List.foldl_cons]
      refine ih _ ?_ (fun r2 h2 => hno r2 (List.mem_cons_of_mem r h2))
      rw [MainJs.processRecord]
      exact updateStat_mem_of_ne _ _ _ _ hst
        (fun he => hno r (List.mem_cons_self r rest) he.symm)

theorem mem_upsertStat (l : List SellerStat) (new st : SellerStat)
    (h : st ∈ MainJs.upsertStat l new) : st ∈ l ∨ st = new := by
  induction l with
  | nil =>
      simp only [MainJs.upsertStat, List.mem_singleton] at h
      exact Or.inr h
  | cons s rest ih =>
      by_cases hs : s.seller_id = new.seller_id
      · simp only [MainJs.upsertStat, if_pos hs, List.mem_cons] at h
        rcases h with rfl | hm
        · exact Or.inr rfl
        · exact Or.inl (List.mem_cons_of_mem s hm)
      · simp only [MainJs.upsertStat, if_neg hs, List.mem_cons] at h
        rcases h with rfl | hm
        · exact Or.inl (List.mem_cons_self st rest)
        · rcases ih hm with hl | hr
          · exact Or.inl (List.mem_cons_of_mem s hl)
          · exact Or.inr hr

theorem foldl_upsert_key_mem (sellers : List Seller) (acc : List SellerStat)
    (st : SellerStat)
    (h : st ∈ sellers.foldl (fun a s => MainJs.upsertStat a (MainJs.mkStat s)) acc) :
    st ∈ acc ∨ st.seller_id ∈ sellers.map (fun s => s.id) := by
  induction sellers generalizing acc with
  | nil => exact Or.inl h
  | cons s rest ih =>
      rw [List.foldl_cons] at h
      rcases ih _ h with hacc | hkey
      · rcases mem_upsertStat _ _ _ hacc with hl | rfl
        · exact Or.inl hl
        · exact Or.inr (by simp [MainJs.mkStat])
      · exact Or.inr (List.mem_cons_of_mem _ hkey)

theorem initStats_key_mem (sellers : List Seller) (st : SellerStat)
    (h : st ∈ MainJs.initStats sellers) : st.seller_id ∈ sellers.map (fun s => s.id) := by
  rcases foldl_upsert_key_mem sellers [] st h with hacc | hkey
  · exact absurd hacc (List.not_mem_nil st)
  · exact hkey

/-- C8: a purchase record whose `seller_id` matches no input seller is
skipped entirely: appending such a record to an otherwise valid input
does not change the result at all (no error is thrown and no accumulator
moves), because `if (!stats) return;` drops the record. -/
theorem unknown_seller_record_no_effect (sellers : List Seller) (products : List Product)
    (records : List PurchaseRecord) (bad : PurchaseRecord)
    (f : LineItem → Option Product → ℚ) (g : ℕ → ℕ → SellerStat → ℚ)
    (hbad : ∀ s ∈ sellers, s.id ≠ bad.seller_id)
    (hs : sellers ≠ []) (hp : products ≠ []) (hr : records ≠ []) :
    MainJs.analyzeSalesData
      (some { sellers := some sellers, products := some products,
              purchase_records := some (records ++ [bad]) })
      (some { calculateRevenue := some f, calculateBonus := some g }) =
    MainJs.analyzeSalesData
      (some { sellers := some sellers, products := some products,
              purchase_records := some records })
      (some { calculateRevenue := some f, calculateBonus := some g }) := by
  have h1 : sellers.isEmpty = false := by simpa [List.isEmpty_iff] using hs
  have h2 : products.isEmpty = false := by simpa [List.isEmpty_iff] using hp
  have h3 : records.isEmpty = false := by simpa [List.isEmpty_iff] using hr
  have h4 : (records ++ [bad]).isEmpty = false := by simp [List.isEmpty_iff]
  simp only [MainJs.analyzeSalesData, h1, h2, h3, h4, Bool.false_or, Bool.or_false,
    if_false, Option.getD_some, Bool.false_eq_true]
  have hkey : MainJs.processRecord products f
      (records.foldl (MainJs.processRecord products f) (MainJs.initStats sellers)) bad
      = records.foldl (MainJs.processRecord products f) (MainJs.initStats sellers) := by
    rw [MainJs.processRecord]
    apply updateStat_id_of_not_mem
    intro st hst hkeyeq
    have hmem : st.seller_id ∈
        (records.foldl (MainJs.processRecord products f)
          (MainJs.initStats sellers)).map (fun st => st.seller_id) :=
      List.mem_map_of_mem _ hst
    rw [foldl_processRecord_map_seller_id] at hmem
    rcases List.mem_map.1 hmem with ⟨st0, hst0, hid⟩
    have := initStats_key_mem sellers st0 hst0
    rcases List.mem_map.1 this with ⟨s, hsmem, hsid⟩
    exact hbad s hsmem (by rw [hsid, hid, hkeyeq])
  rw [MainJs.runPipeline, MainJs.runPipeline, List.foldl_append, List.foldl_cons,
    List.foldl_nil, hkey]

/-- C8 witness: the no-effect theorem applied to a concrete valid input
extended with a record for the unknown seller id "zz". -/
theorem unknown_seller_record_no_effect_witness :
    MainJs.analyzeSalesData
      (some { sellers := some [namedSeller "s1"],
              products := some [{ sku := "A", purchase_price := 5 }],
              purchase_records := some ([{ seller_id := "s1", items := [mkItem "A" 2 10] }] ++
                [{ seller_id := "zz", items := [mkItem "A" 1 1] }]) })
      (some { calculateRevenue := some PartZero.calculateSimpleRevenue,
              calculateBonus := some MainJs.calculateBonusByProfit }) =
    MainJs.analyzeSalesData
      (some { sellers := some [namedSeller "s1"],
              products := some [{ sku := "A", purchase_price := 5 }],
              purchase_records := some [{ seller_id := "s1", items := [mkItem "A" 2 10] }] })
      (some { calculateRevenue := some PartZero.calculateSimpleRevenue,
              calculateBonus := some MainJs.calculateBonusByProfit }) :=
  unknown_seller_record_no_effect [namedSeller "s1"] [{ sku := "A", purchase_price := 5 }]
    [{ seller_id := "s1", items := [mkItem "A" 2 10] }]
    { seller_id := "zz", items := [mkItem "A" 1 1] }
    PartZero.calculateSimpleRevenue MainJs.calculateBonusByProfit
    (by decide) (by decide) (by decide) (by decide)

theorem foldl_lookup_acc (sku : String) (l : List Product) (acc : Option Product)
    (h : ∀ p ∈ l, p.sku ≠ sku) :
    l.foldl (fun acc p => if p.sku = sku then some p else acc) acc = acc := by
  induction l generalizing acc with
  | nil => rfl
  | cons p rest ih =>
      rw [List.foldl_cons, if_neg (h p (List.mem_cons_self p rest))]
      exact ih acc (fun q hq => h q (List.mem_cons_of_mem p hq))

theorem lookupProduct_eq_none (products : List Product) (sku : String)
    (h : ∀ p ∈ products, p.sku ≠ sku) : MainJs.lookupProduct products sku = none :=
  foldl_lookup_acc sku products none h

/-- C7 amended: a line item with an unknown SKU is not skipped — its
cost contribution is 0, its quantity still goes to `sales_count` and
`products_sold`, and its revenue is still computed by the injected
strategy — but the strategy is called with an absent product (JS
`undefined`), not with a product object of zero purchase cost. -/
theorem unknown_sku_item_processed (products : List Product)
    (calcRev : LineItem → Option Product → ℚ) (st : SellerStat) (item : LineItem)
    (h : ∀ p ∈ products, p.sku ≠ item.sku) :
    MainJs.processItem products calcRev st item =
      { st with
        revenue := st.revenue + MainJs.roundToTwo (calcRev item none)
        sales_count := st.sales_count + item.quantity
        products_sold := MainJs.addSold st.products_sold item.sku item.quantity } := by
  rw [MainJs.processItem, lookupProduct_eq_none products item.sku h]
  simp [roundToTwo_zero]

/-- C7 witness: the amended theorem applied to a concrete item with an
unknown SKU over a concrete product list and accumulator. -/
theorem unknown_sku_item_processed_witness :
    MainJs.processItem [{ sku := "A", purchase_price := 5 }] probeRevenue
        statProfit100 itemUnknownSku =
      { statProfit100 with
        revenue := statProfit100.revenue + MainJs.roundToTwo (probeRevenue itemUnknownSku none)
        sales_count := statProfit100.sales_count + itemUnknownSku.quantity
        products_sold := MainJs.addSold statProfit100.products_sold
          itemUnknownSku.sku itemUnknownSku.quantity } :=
  unknown_sku_item_processed _ _ _ _ (by decide)

/-- C7 counterexample: on `dataUnknownSku` the only line item has the
unknown SKU "Z".  The probing strategy returns 7 for an absent product
and 13 for any product object; main.js emits revenue 7, so the claim
that the strategy is called with a product of zero purchase cost (which
would emit 13) is false. -/
theorem unknown_sku_strategy_gets_absent_product :
    MainJs.analyzeSalesData (some dataUnknownSku) (some probeOptions) = .ok [rowUnknownSku] ∧
    rowUnknownSku.revenue = 7 ∧
    probeRevenue (mkItem "Z" 1 5) (some { sku := "Z", purchase_price := 0 }) = 13 ∧
    MainJs.roundToTwo 13 = 13 ∧ ((7 : ℚ) = 13 → False) := by
  refine ⟨?_, rfl, rfl, ?_, by norm_num⟩
  · simp [MainJs.analyzeSalesData, MainJs.runPipeline, MainJs.initStats, MainJs.mkStat,
      MainJs.resolveName, MainJs.jsOrString, MainJs.jsStringOf, MainJs.upsertStat,
      MainJs.processRecord, MainJs.updateStat, MainJs.processItem, MainJs.lookupProduct,
      MainJs.addSold, probeRevenue,
      dataUnknownSku, probeOptions, namedSeller, mkItem, List.foldl_cons, List.foldl_nil]
    norm_num [MainJs.finalizeProfit, MainJs.profitGE, MainJs.soldGE, MainJs.mkReport,
      MainJs.mkRow, MainJs.topProducts, MainJs.calculateBonusByProfit,
      List.insertionSort, List.orderedInsert, rowUnknownSku,
      MainJs.roundToTwo, MainJs.toFixedTwo, Rat.floor_def]
  · norm_num [MainJs.roundToTwo, Rat.floor_def]

/-- C9 counterexample: the seller of `dataJohn` has no explicit name, a
first name "John" and no last name.  The claim says the synthesized name
is the trimmed join "John" and never contains the text "undefined", but
main.js emits "John undefined". -/
theorem name_contains_undefined :
    MainJs.analyzeSalesData (some dataJohn) (some stdOptions) = .ok [rowJohn] ∧
    rowJohn.name = "John undefined" ∧ (("John undefined" : String) = "John" → False) := by
  refine ⟨?_, rfl, by decide⟩
  simp [MainJs.analyzeSalesData, MainJs.runPipeline, MainJs.initStats, MainJs.mkStat,
    MainJs.resolveName, MainJs.jsOrString, MainJs.jsStringOf, MainJs.upsertStat,
    MainJs.processRecord, MainJs.updateStat, MainJs.processItem, MainJs.lookupProduct,
    MainJs.addSold, PartZero.calculateSimpleRevenue,
    dataJohn, stdOptions, johnSeller, mkItem, List.foldl_cons, List.foldl_nil]
  norm_num [MainJs.finalizeProfit, MainJs.profitGE, MainJs.soldGE, MainJs.mkReport,
    MainJs.mkRow, MainJs.topProducts, MainJs.calculateBonusByProfit,
    List.insertionSort, List.orderedInsert, rowJohn,
    MainJs.roundToTwo, MainJs.toFixedTwo, Rat.floor_def]

theorem mem_mkReport (g : ℕ → ℕ → SellerStat → ℚ) (t : ℕ) (i : ℕ) (l : List SellerStat)
    (row : ReportRow) (h : row ∈ MainJs.mkReport g t i l) :
    ∃ j st, st ∈ l ∧ row = MainJs.mkRow g t j st := by
  induction l generalizing i with
  | nil => simp [MainJs.mkReport] at h
  | cons st rest ih =>
      simp only [MainJs.mkReport, List.mem_cons] at h
      rcases h with rfl | hm
      · exact ⟨i, st, List.mem_cons_self st rest, rfl⟩
      · rcases ih (i + 1) hm with ⟨j, st2, hmem, heq⟩
        exact ⟨j, st2, List.mem_cons_of_mem _ hmem, heq⟩

theorem toFixedTwo_mono {p q : ℚ} (h : p ≤ q) :
    MainJs.toFixedTwo p ≤ MainJs.toFixedTwo q := by
  rw [MainJs.toFixedTwo, MainJs.toFixedTwo]
  have h1 : (⌊p * 100 + 1 / 2⌋ : ℤ) ≤ ⌊q * 100 + 1 / 2⌋ :=
    Int.floor_le_floor (by linarith)
  have h2 : ((⌊p * 100 + 1 / 2⌋ : ℤ) : ℚ) ≤ ((⌊q * 100 + 1 / 2⌋ : ℤ) : ℚ) := by
    exact_mod_cast h1
  linarith

theorem toFixedTwo_zero : MainJs.toFixedTwo 0 = 0 := by
  have h := toFixedTwo_intCast 0
  push_cast at h
  exact h

theorem upsertStat_append (acc : List SellerStat) (new : SellerStat)
    (h : ∀ st ∈ acc, st.seller_id ≠ new.seller_id) :
    MainJs.upsertStat acc new = acc ++ [new] := by
  induction acc with
  | nil => rfl
  | cons s rest ih =>
      have hs : s.seller_id ≠ new.seller_id := h s (List.mem_cons_self s rest)
      simp only [MainJs.upsertStat, if_neg hs, List.cons_append]
      rw [ih (fun st hst => h st (List.mem_cons_of_mem s hst))]

theorem foldl_upsert_eq_append (sellers : List Seller) (acc : List SellerStat)
    (hdisj : ∀ s ∈ sellers, ∀ st ∈ acc, st.seller_id ≠ s.id)
    (hnodup : (sellers.map (fun s => s.id)).Nodup) :
    sellers.foldl (fun a s => MainJs.upsertStat a (MainJs.mkStat s)) acc
      = acc ++ sellers.map MainJs.mkStat := by
  induction sellers generalizing acc with
  | nil => simp
  | cons s rest ih =>
      rw [List.map_cons, List.nodup_cons] at hnodup
      rw [List.foldl_cons,
        upsertStat_append acc (MainJs.mkStat s)
          (fun st hst => hdisj s (List.mem_cons_self s rest) st hst)]
      rw [ih (acc ++ [MainJs.mkStat s]) ?_ hnodup.2]
      · simp
      · intro s2 hs2 st hst
        rcases List.mem_append.1 hst with hin | hin
        · exact hdisj s2 (List.mem_cons_of_mem s hs2) st hin
        · rcases List.mem_singleton.1 hin with rfl
          intro he
          have hm : s.id ∈ rest.map (fun s => s.id) := by
            have : (MainJs.mkStat s).seller_id = s.id := rfl
            rw [this] at he
            exact he ▸ List.mem_map_of_mem _ hs2
          exact hnodup.1 hm

theorem initStats_eq_map (sellers : List Seller)
    (hnodup : (sellers.map (fun s => s.id)).Nodup) :
    MainJs.initStats sellers = sellers.map MainJs.mkStat := by
  have h := foldl_upsert_eq_append sellers []
    (fun s _ st hst => absurd hst (List.not_mem_nil st)) hnodup
  simpa [MainJs.initStats] using h

theorem mkReport_length (g : ℕ → ℕ → SellerStat → ℚ) (t : ℕ) (i : ℕ)
    (l : List SellerStat) : (MainJs.mkReport g t i l).length = l.length := by
  induction l generalizing i with
  | nil => rfl
  | cons st rest ih => simp [MainJs.mkReport, ih]

theorem mkReport_map_seller_id (g : ℕ → ℕ → SellerStat → ℚ) (t : ℕ) (i : ℕ)
    (l : List SellerStat) :
    (MainJs.mkReport g t i l).map (fun row => row.seller_id)
      = l.map (fun st => st.seller_id) := by
  induction l generalizing i with
  | nil => rfl
  | cons st rest ih => simp [MainJs.mkReport, MainJs.mkRow, ih]

theorem mkReport_mem_of_mem (g : ℕ → ℕ → SellerStat → ℚ) (t : ℕ) (i : ℕ)
    (l : List SellerStat) (st : SellerStat) (hst : st ∈ l) :
    ∃ j, MainJs.mkRow g t j st ∈ MainJs.mkReport g t i l := by
  induction l generalizing i with
  | nil => exact absurd hst (List.not_mem_nil st)
  | cons s rest ih =>
      rcases List.mem_cons.1 hst with rfl | hm
      · exact ⟨i, by simp [MainJs.mkReport]⟩
      · rcases ih (i + 1) hm with ⟨j, hj⟩
        exact ⟨j, by simp only [MainJs.mkReport, List.mem_cons]; exact Or.inr hj⟩

theorem mkReport_pairwise (g : ℕ → ℕ → SellerStat → ℚ) (t : ℕ) (i : ℕ)
    (l : List SellerStat) (h : l.Pairwise MainJs.profitGE) :
    (MainJs.mkReport g t i l).Pairwise (fun a b => b.profit ≤ a.profit) := by
  induction l generalizing i with
  | nil => simp [MainJs.mkReport]
  | cons st rest ih =>
      rcases List.pairwise_cons.1 h with ⟨hhead, htail⟩
      simp only [MainJs.mkReport]
      refine List.pairwise_cons.2 ⟨?_, ih (i + 1) htail⟩
      intro row hrow
      rcases mem_mkReport g t (i + 1) rest row hrow with ⟨j, st2, hst2, rfl⟩
      exact toFixedTwo_mono (hhead st2 hst2)

theorem mkReport_map_pair (g : ℕ → ℕ → SellerStat → ℚ) (t : ℕ) (i : ℕ)
    (l : List SellerStat) :
    (MainJs.mkReport g t i l).map (fun row => (row.seller_id, row.name))
      = l.map (fun st => (st.seller_id, st.name)) := by
  induction l generalizing i with
  | nil => rfl
  | cons st rest ih => simp [MainJs.mkReport, MainJs.mkRow, ih]

theorem updateStat_map_pair (f : SellerStat → SellerStat)
    (hf : ∀ st, (f st).seller_id = st.seller_id ∧ (f st).name = st.name)
    (l : List SellerStat) (id : String) :
    (MainJs.updateStat f l id).map (fun st => (st.seller_id, st.name))
      = l.map (fun st => (st.seller_id, st.name)) := by
  induction l with
  | nil => rfl
  | cons s rest ih =>
      by_cases hs : s.seller_id = id
      · simp [MainJs.updateStat, hs, (hf s).1, (hf s).2]
      · simp [MainJs.updateStat, hs, ih]

theorem foldl_processRecord_map_pair (products : List Product)
    (calcRev : LineItem → Option Product → ℚ) (records : List PurchaseRecord)
    (stats : List SellerStat) :
    (records.foldl (MainJs.processRecord products calcRev) stats).map
        (fun st => (st.seller_id, st.name))
      = stats.map (fun st => (st.seller_id, st.name)) := by
  induction records generalizing stats with
  | nil => rfl
  | cons r rest ih =>
      rw [List.foldl_cons, ih, MainJs.processRecord]
      exact updateStat_map_pair _
        (fun st => ⟨foldl_processItem_seller_id _ _ _ _, foldl_processItem_name _ _ _ _⟩) _ _

theorem countP_eq_one_of_nodup (l : List String) (a : String)
    (hnodup : l.Nodup) (ha : a ∈ l) :
    l.countP (fun x => decide (x = a)) = 1 := by
  induction l with
  | nil => exact absurd ha (List.not_mem_nil a)
  | cons b rest ih =>
      rw [List.nodup_cons] at hnodup
      by_cases hb : b = a
      · subst hb
        rw [List.countP_cons_of_pos _ _ (by simp)]
        have hz : rest.countP (fun x => decide (x = b)) = 0 :=
          List.countP_eq_zero.2 (fun x hx => by
            simp only [decide_eq_true_eq]
            intro he
            exact hnodup.1 (he ▸ hx))
        rw [hz]
      · rcases List.mem_cons.1 ha with rfl | hm
        · exact absurd rfl hb
        · rw [List.countP_cons_of_neg _ _ (by simp [hb])]
          exact ih hnodup.2 hm

theorem nameSpecAmended_eq_resolveName (s : Seller) :
    nameSpecAmended s = MainJs.resolveName s := by
  cases hn : s.name <;>
    simp [nameSpecAmended, MainJs.resolveName, MainJs.jsOrString, hn]

/-- C5: for a valid input with pairwise distinct seller ids the report
has exactly one row per seller (sellers without records included, their
revenue, profit and sales count all 0) and adjacent rows are ordered by
non-increasing profit. -/
theorem report_one_row_per_seller_sorted
    (sellers : List Seller) (products : List Product) (records : List PurchaseRecord)
    (f : LineItem → Option Product → ℚ) (g : ℕ → ℕ → SellerStat → ℚ)
    (hs : sellers ≠ []) (hp : products ≠ []) (hr : records ≠ [])
    (hnodup : (sellers.map (fun s => s.id)).Nodup) :
    ∃ report,
      MainJs.analyzeSalesData
        (some { sellers := some sellers, products := some products,
                purchase_records := some records })
        (some { calculateRevenue := some f, calculateBonus := some g }) = .ok report ∧
      report.length = sellers.length ∧
      (∀ s ∈ sellers, (report.filter (fun row => row.seller_id = s.id)).length = 1) ∧
      (∀ i, ∀ h1 : i + 1 < report.length,
        (report.get ⟨i + 1, h1⟩).profit ≤ (report.get ⟨i, Nat.lt_of_succ_lt h1⟩).profit) ∧
      (∀ s ∈ sellers, (∀ r ∈ records, r.seller_id ≠ s.id) →
        ∃ row ∈ report, row.seller_id = s.id ∧ row.revenue = 0 ∧ row.profit = 0 ∧
          row.sales_count = 0) := by
  have h1 : sellers.isEmpty = false := by simpa [List.isEmpty_iff] using hs
  have h2 : products.isEmpty = false := by simpa [List.isEmpty_iff] using hp
  have h3 : records.isEmpty = false := by simpa [List.isEmpty_iff] using hr
  have hrep : MainJs.runPipeline sellers products records f g
      = MainJs.mkReport g
          (List.insertionSort MainJs.profitGE
            ((records.foldl (MainJs.processRecord products f)
                (MainJs.initStats sellers)).map MainJs.finalizeProfit)).length 0
          (List.insertionSort MainJs.profitGE
            ((records.foldl (MainJs.processRecord products f)
                (MainJs.initStats sellers)).map MainJs.finalizeProfit)) := rfl
  have hkeys1 : (records.foldl (MainJs.processRecord products f)
        (MainJs.initStats sellers)).map (fun st => st.seller_id)
      = sellers.map (fun s => s.id) := by
    rw [foldl_processRecord_map_seller_id, initStats_eq_map sellers hnodup, List.map_map]
    rfl
  have hpermKeys : ((List.insertionSort MainJs.profitGE
        ((records.foldl (MainJs.processRecord products f)
          (MainJs.initStats sellers)).map MainJs.finalizeProfit)).map
        (fun st => st.seller_id)).Perm (sellers.map (fun s => s.id)) := by
    have hp1 := (List.perm_insertionSort MainJs.profitGE
      ((records.foldl (MainJs.processRecord products f)
        (MainJs.initStats sellers)).map MainJs.finalizeProfit)).map
      (fun st => st.seller_id)
    rw [List.map_map] at hp1
    have hc : ((fun st : SellerStat => st.seller_id) ∘ MainJs.finalizeProfit)
        = (fun st : SellerStat => st.seller_id) := rfl
    rw [hc, hkeys1] at hp1
    exact hp1
  refine ⟨MainJs.runPipeline sellers products records f g, ?_, ?_, ?_, ?_, ?_⟩
  · simp [MainJs.analyzeSalesData, h1, h2, h3, Option.getD]
  · rw [hrep, mkReport_length, List.length_insertionSort, List.length_map]
    have := congrArg List.length hkeys1
    simpa using this
  · intro s hsmem
    rw [hrep]
    rw [← List.countP_eq_length_filter]
    have hcm := List.countP_map (fun x => decide (x = s.id))
      (fun row : ReportRow => row.seller_id)
      (MainJs.mkReport g
        (List.insertionSort MainJs.profitGE
          ((records.foldl (MainJs.processRecord products f)
            (MainJs.initStats sellers)).map MainJs.finalizeProfit)).length 0
        (List.insertionSort MainJs.profitGE
          ((records.foldl (MainJs.processRecord products f)
            (MainJs.initStats sellers)).map MainJs.finalizeProfit)))
    rw [mkReport_map_seller_id] at hcm
    rw [show (fun row : ReportRow => decide (row.seller_id = s.id))
        = ((fun x => decide (x = s.id)) ∘ (fun row : ReportRow => row.seller_id)) from rfl]
    rw [← hcm]
    rw [hpermKeys.countP_eq]
    exact countP_eq_one_of_nodup _ _ hnodup (List.mem_map_of_mem _ hsmem)
  · have hpw : (MainJs.runPipeline sellers products records f g).Pairwise
        (fun a b => b.profit ≤ a.profit) := by
      rw [hrep]
      exact mkReport_pairwise g _ 0 _ (List.sorted_insertionSort _ _)
    intro i hi1
    exact List.pairwise_iff_get.1 hpw ⟨i, Nat.lt_of_succ_lt hi1⟩ ⟨i + 1, hi1⟩
      (Nat.lt_succ_self i)
  · intro s hsmem hnorec
    have hst0 : MainJs.mkStat s ∈ MainJs.initStats sellers := by
      rw [initStats_eq_map sellers hnodup]
      exact List.mem_map_of_mem _ hsmem
    have hst1 : MainJs.mkStat s ∈ records.foldl (MainJs.processRecord products f)
        (MainJs.initStats sellers) :=
      foldl_processRecord_mem products f records _ _ hst0 hnorec
    have hrank : MainJs.finalizeProfit (MainJs.mkStat s) ∈
        List.insertionSort MainJs.profitGE
          ((records.foldl (MainJs.processRecord products f)
            (MainJs.initStats sellers)).map MainJs.finalizeProfit) :=
      (List.mem_insertionSort _).2 (List.mem_map_of_mem _ hst1)
    rcases mkReport_mem_of_mem g
      (List.insertionSort MainJs.profitGE
        ((records.foldl (MainJs.processRecord products f)
          (MainJs.initStats sellers)).map MainJs.finalizeProfit)).length 0 _ _ hrank
      with ⟨j, hj⟩
    refine ⟨_, by rw [hrep]; exact hj, rfl, toFixedTwo_zero, ?_, rfl⟩
    show MainJs.toFixedTwo (MainJs.roundToTwo ((0 : ℚ) - 0)) = 0
    rw [sub_zero, roundToTwo_zero, toFixedTwo_zero]

/-- C5 witness: the row-per-seller and ordering theorem applied to the
two-seller scenario in which the second seller sold nothing. -/
theorem report_one_row_per_seller_sorted_witness :
    ∃ report,
      MainJs.analyzeSalesData
        (some { sellers := some sellersTwo, products := some productsTwo,
                purchase_records := some recordsTwo })
        (some { calculateRevenue := some PartZero.calculateSimpleRevenue,
                calculateBonus := some MainJs.calculateBonusByProfit }) = .ok report ∧
      report.length = sellersTwo.length ∧
      (∀ s ∈ sellersTwo, (report.filter (fun row => row.seller_id = s.id)).length = 1) ∧
      (∀ i, ∀ h1 : i + 1 < report.length,
        (report.get ⟨i + 1, h1⟩).profit ≤ (report.get ⟨i, Nat.lt_of_succ_lt h1⟩).profit) ∧
      (∀ s ∈ sellersTwo, (∀ r ∈ recordsTwo, r.seller_id ≠ s.id) →
        ∃ row ∈ report, row.seller_id = s.id ∧ row.revenue = 0 ∧ row.profit = 0 ∧
          row.sales_count = 0) :=
  report_one_row_per_seller_sorted sellersTwo productsTwo recordsTwo
    PartZero.calculateSimpleRevenue MainJs.calculateBonusByProfit
    (by decide) (by decide) (by decide) (by decide)

/-- C9 amended: every report row carries the name resolved as the
explicit `name` when present and non-empty, and otherwise the untrimmed
join of first and last name with an absent part rendered as the text
"undefined" (the JS string coercion of `undefined`), as computed by
`seller.name || seller.first_name + " " + seller.last_name`. -/
theorem report_name_resolution_untrimmed
    (sellers : List Seller) (products : List Product) (records : List PurchaseRecord)
    (f : LineItem → Option Product → ℚ) (g : ℕ → ℕ → SellerStat → ℚ)
    (hs : sellers ≠ []) (hp : products ≠ []) (hr : records ≠ [])
    (hnodup : (sellers.map (fun s => s.id)).Nodup) :
    ∃ report,
      MainJs.analyzeSalesData
        (some { sellers := some sellers, products := some products,
                purchase_records := some records })
        (some { calculateRevenue := some f, calculateBonus := some g }) = .ok report ∧
      ∀ s ∈ sellers, ∃ row ∈ report, row.seller_id = s.id ∧
        row.name = nameSpecAmended s := by
  have h1 : sellers.isEmpty = false := by simpa [List.isEmpty_iff] using hs
  have h2 : products.isEmpty = false := by simpa [List.isEmpty_iff] using hp
  have h3 : records.isEmpty = false := by simpa [List.isEmpty_iff] using hr
  have hrep : MainJs.runPipeline sellers products records f g
      = MainJs.mkReport g
          (List.insertionSort MainJs.profitGE
            ((records.foldl (MainJs.processRecord products f)
                (MainJs.initStats sellers)).map MainJs.finalizeProfit)).length 0
          (List.insertionSort MainJs.profitGE
            ((records.foldl (MainJs.processRecord products f)
                (MainJs.initStats sellers)).map MainJs.finalizeProfit)) := rfl
  refine ⟨MainJs.runPipeline sellers products records f g, ?_, ?_⟩
  · simp [MainJs.analyzeSalesData, h1, h2, h3, Option.getD]
  intro s hsmem
  have hpair0 : ((s.id, MainJs.resolveName s) : String × String) ∈
      (MainJs.initStats sellers).map (fun st => (st.seller_id, st.name)) := by
    rw [initStats_eq_map sellers hnodup, List.map_map]
    have hc : ((fun st : SellerStat => (st.seller_id, st.name)) ∘ MainJs.mkStat)
        = fun s : Seller => (s.id, MainJs.resolveName s) := rfl
    rw [hc]
    exact List.mem_map_of_mem _ hsmem
  have hpair1 : ((s.id, MainJs.resolveName s) : String × String) ∈
      (records.foldl (MainJs.processRecord products f)
        (MainJs.initStats sellers)).map (fun st => (st.seller_id, st.name)) := by
    rw [foldl_processRecord_map_pair]
    exact hpair0
  rcases List.mem_map.1 hpair1 with ⟨st1, hst1, hpe⟩
  have hrank : MainJs.finalizeProfit st1 ∈
      List.insertionSort MainJs.profitGE
        ((records.foldl (MainJs.processRecord products f)
          (MainJs.initStats sellers)).map MainJs.finalizeProfit) :=
    (List.mem_insertionSort _).2 (List.mem_map_of_mem _ hst1)
  rcases mkReport_mem_of_mem g
    (List.insertionSort MainJs.profitGE
      ((records.foldl (MainJs.processRecord products f)
        (MainJs.initStats sellers)).map MainJs.finalizeProfit)).length 0 _ _ hrank
    with ⟨j, hj⟩
  refine ⟨_, by rw [hrep]; exact hj, ?_, ?_⟩
  · exact congrArg Prod.fst hpe
  · rw [nameSpecAmended_eq_resolveName]
    exact congrArg Prod.snd hpe

/-- C9 witness: the name-resolution theorem applied to the input whose
only seller has first name "John", no last name and no explicit name. -/
theorem report_name_resolution_untrimmed_witness :
    ∃ report,
      MainJs.analyzeSalesData
        (some { sellers := some [johnSeller],
                products := some [{ sku := "A", purchase_price := 5 }],
                purchase_records := some [{ seller_id := "s1", items := [mkItem "A" 2 10] }] })
        (some { calculateRevenue := some PartZero.calculateSimpleRevenue,
                calculateBonus := some MainJs.calculateBonusByProfit }) = .ok report ∧
      ∀ s ∈ [johnSeller], ∃ row ∈ report, row.seller_id = s.id ∧
        row.name = nameSpecAmended s :=
  report_name_resolution_untrimmed [johnSeller] [{ sku := "A", purchase_price := 5 }]
    [{ seller_id := "s1", items := [mkItem "A" 2 10] }]
    PartZero.calculateSimpleRevenue MainJs.calculateBonusByProfit
    (by decide) (by decide) (by decide) (by decide)
